import Mathlib

/-!
Shallow embedding of the indicator scoring engine of the crypto_analysis
repository (django_app/main/indicators/) and proofs about it.

Python floats are modelled by rationals (ℚ); dates by natural-number day
ordinals; fallible code by `Except`/`Option`; the database of persisted
score points by an association list keyed on (indicator_id, date).
-/

namespace CryptoAnalysis

/-! ## base.py: BaseCalculator.validate_value -/

/-- `BaseCalculator.validate_value` (base.py lines 40-54): clamp a raw
value into [-1.0, 1.0]. -/
def validate_value (value : ℚ) : ℚ :=
  if value < -1 then -1
  else if value > 1 then 1
  else value

/-! ## rsi.py: RSICalculator -/

/-- `RSICalculator._rsi_to_score` (rsi.py lines 108-140).  Note the source
fixes `neutral = 50.0` (line 125) rather than deriving it from the
thresholds. -/
def rsi_to_score (rsi oversold overbought : ℚ) : ℚ :=
  let neutral : ℚ := 50
  if rsi ≤ oversold then 1
  else if rsi ≥ overbought then -1
  else if rsi < neutral then (neutral - rsi) / (neutral - oversold)
  else -(rsi - neutral) / (overbought - neutral)

/-- Day-over-day deltas `prices[i] - prices[i-1]` (rsi.py line 84). -/
def priceDeltas (prices : List ℚ) : List ℚ :=
  List.zipWith (fun next prev => next - prev) prices.tail prices

/-- Gains `d if d > 0 else 0` (rsi.py line 87). -/
def gainsOf (prices : List ℚ) : List ℚ :=
  (priceDeltas prices).map (fun d => if d > 0 then d else 0)

/-- Losses `-d if d < 0 else 0` (rsi.py line 88). -/
def lossesOf (prices : List ℚ) : List ℚ :=
  (priceDeltas prices).map (fun d => if d < 0 then -d else 0)

/-- Wilder smoothing loop (rsi.py lines 95-97) applied to one series:
seed with the simple mean of the first `period` values, then
`avg = (avg*(period-1) + v) / period` for each remaining value. -/
def wilderAverage (period : ℕ) (values : List ℚ) : ℚ :=
  (values.drop period).foldl
    (fun avg v => (avg * ((period : ℚ) - 1) + v) / (period : ℚ))
    ((values.take period).sum / (period : ℚ))

/-- The smoothed average gain of `RSICalculator._calculate_rsi`. -/
def avgGain (prices : List ℚ) (period : ℕ) : ℚ :=
  wilderAverage period (gainsOf prices)

/-- The smoothed average loss of `RSICalculator._calculate_rsi`. -/
def avgLoss (prices : List ℚ) (period : ℕ) : ℚ :=
  wilderAverage period (lossesOf prices)

/-- `RSICalculator._calculate_rsi` (rsi.py lines 72-106): Wilder's RSI on a
close series ordered oldest→newest. -/
def calculate_rsi (prices : List ℚ) (period : ℕ) : ℚ :=
  if avgLoss prices period = 0 then 100
  else 100 - 100 / (1 + avgGain prices period / avgLoss prices period)

/-- The history check and scoring pipeline of `RSICalculator.calculate`
(rsi.py lines 53-65), on the fetched close series: fewer than `period + 1`
observations is an insufficient-history error, otherwise the RSI is
computed, mapped to a score and clamped. -/
def rsiCalculate (closes : List ℚ) (period : ℕ) (oversold overbought : ℚ) :
    Except String ℚ :=
  if closes.length < period + 1 then .error "InsufficientHistory"
  else .ok (validate_value (rsi_to_score (calculate_rsi closes period) oversold overbought))

/-! ## stock_indicator_adapter.py: StockIndicatorCalculator -/

/-- `StockIndicatorCalculator._score_threshold` (stock_indicator_adapter.py
lines 259-295), after the named field (`rsi`, `oscillator`, `cci`,
`williams_r`) carrying the raw value has been extracted: here the neutral
point is `(oversold + overbought) / 2` (line 283). -/
def score_threshold (value oversold overbought : ℚ) : ℚ :=
  let neutral : ℚ := (oversold + overbought) / 2
  if value ≤ oversold then 1
  else if value ≥ overbought then -1
  else if value < neutral then (neutral - value) / (neutral - oversold)
  else -(value - neutral) / (overbought - neutral)

end CryptoAnalysis

namespace CryptoAnalysis

/-! ## Theorems for C1 and C2 -/

/-- C1 claim, counterexample: with `oversold = 20`, `overbought = 70` the
claimed neutral point is `(20+70)/2 = 45`, so the claim predicts
`score = -(48 - 45)/(70 - 45) = -3/25` at `RSI = 48`; the code, whose
neutral point is fixed at 50, returns `(50 - 48)/(50 - 20) = 1/15`. -/
theorem c1_counterexample :
    rsi_to_score 48 20 70 = 1 / 15 ∧
    rsi_to_score 48 20 70 ≠ -((48 - (20 + 70) / 2) / (70 - (20 + 70) / 2)) := by
  unfold rsi_to_score
  norm_num

/-- C1 amended: for thresholds straddling the fixed neutral point
(`oversold < 50 < overbought`), `RSICalculator._rsi_to_score` is the
piecewise-linear map with neutral = 50: score = 1.0 for RSI ≤ oversold,
-1.0 for RSI ≥ overbought, `(50 - RSI)/(50 - oversold)` for
oversold < RSI < 50, and `-(RSI - 50)/(overbought - 50)` for
50 ≤ RSI < overbought. -/
theorem c1_rsi_to_score_piecewise (rsi oversold overbought : ℚ)
    (hlo : oversold < 50) (hhi : 50 < overbought) :
    (rsi ≤ oversold → rsi_to_score rsi oversold overbought = 1) ∧
    (rsi ≥ overbought → rsi_to_score rsi oversold overbought = -1) ∧
    (oversold < rsi → rsi < 50 →
      rsi_to_score rsi oversold overbought = (50 - rsi) / (50 - oversold)) ∧
    (50 ≤ rsi → rsi < overbought →
      rsi_to_score rsi oversold overbought = -(rsi - 50) / (overbought - 50)) := by
  unfold rsi_to_score
  refine ⟨fun h => by simp [h], fun h => ?_, fun h1 h2 => ?_, fun h1 h2 => ?_⟩
  · rw [if_neg (by linarith), if_pos h]
  · rw [if_neg (by linarith), if_neg (by simp; linarith), if_pos h2]
  · rw [if_neg (by linarith), if_neg (by simp; linarith), if_neg (by linarith)]

/-- C1 witness: the amended characterization evaluated with the default
thresholds 30/70 at RSI = 55. -/
theorem c1_witness :
    ((55 : ℚ) ≤ 30 → rsi_to_score 55 30 70 = 1) ∧
    ((55 : ℚ) ≥ 70 → rsi_to_score 55 30 70 = -1) ∧
    ((30 : ℚ) < 55 → (55 : ℚ) < 50 →
      rsi_to_score 55 30 70 = (50 - 55) / (50 - 30)) ∧
    ((50 : ℚ) ≤ 55 → (55 : ℚ) < 70 →
      rsi_to_score 55 30 70 = -(55 - 50) / (70 - 50)) :=
  c1_rsi_to_score_piecewise 55 30 70 (by norm_num) (by norm_num)

/-- C2 claim, counterexample: with `oversold = 20`, `overbought = 70` and
raw value 48, the adapter's threshold scoring (neutral `(20+70)/2 = 45`)
returns `-3/25` while the RSI reference mapping (neutral fixed at 50)
returns `1/15`: the two scoring functions are not extensionally equal. -/
theorem c2_counterexample :
    score_threshold 48 20 70 = -(3 / 25) ∧
    rsi_to_score 48 20 70 = 1 / 15 ∧
    score_threshold 48 20 70 ≠ rsi_to_score 48 20 70 := by
  unfold score_threshold rsi_to_score
  norm_num

/-- C2 amended: the adapter's `_score_threshold` agrees with the RSI
reference mapping `_rsi_to_score` exactly on threshold pairs whose
midpoint is 50 (`oversold + overbought = 100`), which includes the RSI
defaults 30/70; in general the two differ, the adapter using neutral
`(oversold + overbought)/2` where the reference fixes 50. -/
theorem c2_score_threshold_eq_rsi_to_score (value oversold overbought : ℚ)
    (h : oversold + overbought = 100) :
    score_threshold value oversold overbought =
      rsi_to_score value oversold overbought := by
  unfold score_threshold rsi_to_score
  have hmid : (oversold + overbought) / 2 = 50 := by rw [h]; norm_num
  simp only [hmid]

/-- C2 witness: with the default thresholds 30/70 (midpoint 50) the two
scoring functions agree, e.g. at raw value 48. -/
theorem c2_witness :
    (30 : ℚ) + 70 = 100 ∧ score_threshold 48 30 70 = rsi_to_score 48 30 70 :=
  ⟨by norm_num, c2_score_threshold_eq_rsi_to_score 48 30 70 (by norm_num)⟩

/-! ## Supporting lemmas for the RSI computation (C4) -/

lemma gainsOf_nonneg (prices : List ℚ) : ∀ v ∈ gainsOf prices, 0 ≤ v := by
  intro v hv
  simp only [gainsOf, List.mem_map] at hv
  obtain ⟨d, _, rfl⟩ := hv
  split <;> [linarith; rfl]

lemma lossesOf_nonneg (prices : List ℚ) : ∀ v ∈ lossesOf prices, 0 ≤ v := by
  intro v hv
  simp only [lossesOf, List.mem_map] at hv
  obtain ⟨d, _, rfl⟩ := hv
  split <;> [linarith; rfl]

lemma wilder_foldl_nonneg (period : ℕ) (hp : 1 ≤ period) :
    ∀ (l : List ℚ) (seed : ℚ), 0 ≤ seed → (∀ v ∈ l, 0 ≤ v) →
      0 ≤ l.foldl
        (fun avg v => (avg * ((period : ℚ) - 1) + v) / (period : ℚ)) seed := by
  intro l
  induction l with
  | nil => intro seed hs _; simpa using hs
  | cons head tail ih =>
    intro seed hs hl
    simp only [List.foldl_cons]
    apply ih
    · have h1 : (1 : ℚ) ≤ (period : ℚ) := by exact_mod_cast hp
      have hh : 0 ≤ head := hl head (by simp)
      have : 0 ≤ seed * ((period : ℚ) - 1) := mul_nonneg hs (by linarith)
      positivity
    · intro v hv; exact hl v (by simp [hv])

lemma wilderAverage_nonneg (period : ℕ) (values : List ℚ) (hp : 1 ≤ period)
    (hv : ∀ v ∈ values, 0 ≤ v) : 0 ≤ wilderAverage period values := by
  unfold wilderAverage
  apply wilder_foldl_nonneg period hp
  · apply div_nonneg
    · exact List.sum_nonneg fun v h => hv v (List.mem_of_mem_take h)
    · positivity
  · intro v h; exact hv v (List.mem_of_mem_drop h)

lemma wilderAverage_zero (period : ℕ) (values : List ℚ)
    (h : ∀ v ∈ values, v = 0) : wilderAverage period values = 0 := by
  unfold wilderAverage
  have hseed : (values.take period).sum / (period : ℚ) = 0 := by
    rw [List.sum_eq_zero fun v hv => h v (List.mem_of_mem_take hv), zero_div]
  rw [hseed]
  have : ∀ (l : List ℚ), (∀ v ∈ l, v = 0) →
      l.foldl (fun avg v => (avg * ((period : ℚ) - 1) + v) / (period : ℚ)) 0 = 0 := by
    intro l
    induction l with
    | nil => intro _; rfl
    | cons head tail ih =>
      intro hl
      have hh : head = 0 := hl head (by simp)
      simp only [List.foldl_cons, hh, zero_mul, zero_add, zero_div]
      exact ih fun v hv => hl v (by simp [hv])
  exact this _ fun v hv => h v (List.mem_of_mem_drop hv)

/-! ## Theorems for C4 -/

/-- C4 claim, counterexample: with window `W = 1` and price series `[2, 1]`
(length `W + 1`), the single delta of the seed window is `-1`, a loss; the
claim predicts `RSI == 100`, but `_calculate_rsi` returns
`100 - 100/(1 + 0/1) = 0` (all-loss series drive RSI to 0, not 100). -/
theorem c4_counterexample :
    calculate_rsi [2, 1] 1 = 0 ∧ calculate_rsi [2, 1] 1 ≠ 100 := by
  have h : calculate_rsi [2, 1] 1 = 0 := by
    norm_num [calculate_rsi, avgLoss, avgGain, wilderAverage, lossesOf, gainsOf,
      priceDeltas]
  exact ⟨h, by rw [h]; norm_num⟩

/-- C4 amended: for every lookback window `W ≥ 1` and price series of
length `≥ W + 1`, `_calculate_rsi` returns a value in [0, 100]; if
`avg_loss == 0` it returns exactly 100 with no division error; and if no
delta in the series is a loss (every day-over-day change is ≥ 0, so
`avg_loss == 0`), it returns `RSI == 100` exactly. -/
theorem c4_rsi_bounds (prices : List ℚ) (period : ℕ)
    (hp : 1 ≤ period) (hlen : period + 1 ≤ prices.length) :
    (0 ≤ calculate_rsi prices period ∧ calculate_rsi prices period ≤ 100) ∧
    (avgLoss prices period = 0 → calculate_rsi prices period = 100) ∧
    ((∀ d ∈ priceDeltas prices, 0 ≤ d) → calculate_rsi prices period = 100) := by
  have hg : 0 ≤ avgGain prices period :=
    wilderAverage_nonneg period _ hp (gainsOf_nonneg prices)
  have hl : 0 ≤ avgLoss prices period :=
    wilderAverage_nonneg period _ hp (lossesOf_nonneg prices)
  refine ⟨?_, fun h => by simp [calculate_rsi, h], fun h => ?_⟩
  · unfold calculate_rsi
    split
    · norm_num
    · rename_i hne
      have hlpos : 0 < avgLoss prices period := lt_of_le_of_ne hl (Ne.symm hne)
      have hrs : 0 ≤ avgGain prices period / avgLoss prices period :=
        div_nonneg hg hl
      have hden : (1 : ℚ) ≤ 1 + avgGain prices period / avgLoss prices period := by
        linarith
      have hq1 : 100 / (1 + avgGain prices period / avgLoss prices period) ≤ 100 :=
        div_le_self (by norm_num) hden
      have hq2 : 0 < 100 / (1 + avgGain prices period / avgLoss prices period) :=
        div_pos (by norm_num) (by linarith)
      constructor <;> linarith
  · have hzero : avgLoss prices period = 0 := by
      apply wilderAverage_zero
      intro v hv
      simp only [lossesOf, List.mem_map] at hv
      obtain ⟨d, hd, rfl⟩ := hv
      have := h d hd
      split <;> [linarith; rfl]
    simp [calculate_rsi, hzero]

/-- C4 witness: the amended property evaluated with window 2 on the
three-observation rising series `[1, 2, 3]` (no delta is a loss). -/
theorem c4_witness :
    (0 ≤ calculate_rsi [1, 2, 3] 2 ∧ calculate_rsi [1, 2, 3] 2 ≤ 100) ∧
    (avgLoss [1, 2, 3] 2 = 0 → calculate_rsi [1, 2, 3] 2 = 100) ∧
    ((∀ d ∈ priceDeltas [1, 2, 3], 0 ≤ d) → calculate_rsi [1, 2, 3] 2 = 100) :=
  c4_rsi_bounds [1, 2, 3] 2 (by norm_num) (by simp)

/-! ## Theorems for C7 -/

/-- Whether an `Except` computation succeeded. -/
def isOk {ε α : Type} : Except ε α → Bool
  | .ok _ => true
  | .error _ => false

/-- C7 confirmed: for every window `W ≥ 1` and thresholds, the RSI
calculator's history check fails with `InsufficientHistory` exactly when
the fetched close series has fewer than `W + 1` observations: a series of
exactly `W + 1` closes passes the check (boundary case), while `W` closes
alone fails. -/
theorem c7_history_check (W : ℕ) (oversold overbought : ℚ) (closes : List ℚ)
    (hW : 1 ≤ W) :
    (isOk (rsiCalculate closes W oversold overbought) = true ↔
      W + 1 ≤ closes.length) ∧
    (closes.length = W + 1 →
      isOk (rsiCalculate closes W oversold overbought) = true) ∧
    (closes.length = W →
      rsiCalculate closes W oversold overbought = .error "InsufficientHistory") := by
  unfold rsiCalculate
  refine ⟨?_, fun h => ?_, fun h => ?_⟩
  · by_cases hlt : closes.length < W + 1
    · simp only [if_pos hlt]
      constructor
      · intro hok; exact absurd hok (by simp [isOk])
      · intro hle; omega
    · simp only [if_neg hlt, isOk]
      constructor
      · intro _; omega
      · intro _; trivial
  · rw [if_neg (by omega)]; rfl
  · rw [if_pos (by omega)]

/-- C7 witness: with window 1, the two-observation series `[1, 2]` passes
the check and the one-observation series fails, as the theorem states. -/
theorem c7_witness :
    ((isOk (rsiCalculate [(1 : ℚ), 2] 1 30 70) = true ↔ 1 + 1 ≤ [(1 : ℚ), 2].length) ∧
      ([(1 : ℚ), 2].length = 1 + 1 → isOk (rsiCalculate [(1 : ℚ), 2] 1 30 70) = true) ∧
      ([(1 : ℚ), 2].length = 1 →
        rsiCalculate [(1 : ℚ), 2] 1 30 70 = .error "InsufficientHistory")) ∧
    ((isOk (rsiCalculate [(1 : ℚ)] 1 30 70) = true ↔ 1 + 1 ≤ [(1 : ℚ)].length) ∧
      ([(1 : ℚ)].length = 1 + 1 → isOk (rsiCalculate [(1 : ℚ)] 1 30 70) = true) ∧
      ([(1 : ℚ)].length = 1 →
        rsiCalculate [(1 : ℚ)] 1 30 70 = .error "InsufficientHistory")) :=
  ⟨c7_history_check 1 30 70 [(1 : ℚ), 2] (by norm_num),
   c7_history_check 1 30 70 [(1 : ℚ)] (by norm_num)⟩

/-! ## settings.py / stock_indicator_adapter.py: registry and routine map (C3) -/

/-- The keys of `SETTINGS_REGISTRY` (settings.py lines 268-282), in source
order. -/
def settingsRegistryKeys : List String :=
  ["rsi", "macd", "sma", "ema", "bollinger_bands", "stochastic", "atr",
   "adx", "cci", "williams_r", "obv", "parabolic_sar", "ichimoku"]

/-- The `indicator_map` of `StockIndicatorCalculator._calculate_indicator`
(stock_indicator_adapter.py lines 167-181), mapping a configured indicator
name to the stock-indicators routine name. -/
def indicator_map : List (String × String) :=
  [("rsi", "get_rsi"), ("macd", "get_macd"), ("sma", "get_sma"),
   ("ema", "get_ema"), ("bollinger_bands", "get_bollinger_bands"),
   ("stoch", "get_stoch"), ("atr", "get_atr"), ("adx", "get_adx"),
   ("cci", "get_cci"), ("williams_r", "get_williams_r"), ("obv", "get_obv"),
   ("psar", "get_psar"), ("ichimoku", "get_ichimoku")]

/-- `indicator_map.get(indicator_name)` (stock_indicator_adapter.py line
183): the routine resolved for an indicator name, `none` when the
subsequent `if not func_name` check raises the configuration error. -/
def lookupRoutine (name : String) : Option String :=
  (indicator_map.find? (fun p => p.1 = name)).map Prod.snd

/-- C3 claim, counterexample: `"stochastic"` is a key of
`SETTINGS_REGISTRY` (so it passes the step-1 settings lookup), yet step 3
resolves no routine for it — the routine map keys it as `"stoch"` — so the
adapter fails with a `ConfigurationError`; likewise `"parabolic_sar"`
(mapped as `"psar"`). -/
theorem c3_counterexample :
    "stochastic" ∈ settingsRegistryKeys ∧ lookupRoutine "stochastic" = none ∧
    "parabolic_sar" ∈ settingsRegistryKeys ∧ lookupRoutine "parabolic_sar" = none := by
  refine ⟨by decide, by decide, by decide, by decide⟩

/-- C3 amended: of the settings-registry keys, exactly those other than
`"stochastic"` and `"parabolic_sar"` resolve an external math routine at
step 3; for those two the adapter fails with `ConfigurationError` even
though they are registered, because the routine map lists them under the
different names `"stoch"` and `"psar"`. -/
theorem c3_registry_routines (name : String) (h : name ∈ settingsRegistryKeys) :
    (lookupRoutine name).isSome = true ↔
      name ≠ "stochastic" ∧ name ≠ "parabolic_sar" := by
  fin_cases h <;> decide

/-- C3 witness: the registered name `"rsi"` resolves a routine. -/
theorem c3_witness :
    (lookupRoutine "rsi").isSome = true ↔
      "rsi" ≠ "stochastic" ∧ "rsi" ≠ "parabolic_sar" :=
  c3_registry_routines "rsi" (by decide)

/-! ## helpers.py: get_indicator_score_summary (C6, C10) -/

/-- `_score_to_sentiment` (helpers.py lines 378-389). -/
def score_to_sentiment (score : ℚ) : String :=
  if score ≥ 0.6 then "Very Bullish"
  else if score ≥ 0.2 then "Bullish"
  else if score ≥ -0.2 then "Neutral"
  else if score ≥ -0.6 then "Bearish"
  else "Very Bearish"

/-- The summary mapping returned by `get_indicator_score_summary`
(helpers.py lines 362-375); the `ticker`/`date` echo fields are omitted,
and each entry of `indicators` is the (score, sentiment) pair of one
successful indicator. -/
structure ScoreSummary where
  overall_score : ℚ
  overall_sentiment : String
  indicator_count : ℕ
  indicators : List (ℚ × String)
  bullish_count : ℕ
  bearish_count : ℕ
  neutral_count : ℕ
deriving DecidableEq

/-- `get_indicator_score_summary` (helpers.py lines 317-375), abstracted
over the per-indicator outcomes: each configured indicator either yields a
score (`some`) or raises and is skipped (`none`). -/
def get_indicator_score_summary (outcomes : List (Option ℚ)) : ScoreSummary :=
  let scores := outcomes.filterMap id
  let overall : ℚ := if scores.isEmpty then 0 else scores.sum / (scores.length : ℚ)
  { overall_score := overall
    overall_sentiment := score_to_sentiment overall
    indicator_count := scores.length
    indicators := scores.map (fun s => (s, score_to_sentiment s))
    bullish_count := (scores.filter (fun s => decide (s > 0.3))).length
    bearish_count := (scores.filter (fun s => decide (s < -0.3))).length
    neutral_count := (scores.filter (fun s => decide (-0.3 ≤ s ∧ s ≤ 0.3))).length }

/-- Characterization of the five sentiment buckets of
`_score_to_sentiment`: note the `Neutral` band is the half-open interval
[-0.2, 0.2). -/
lemma score_to_sentiment_spec (s : ℚ) :
    (0.6 ≤ s → score_to_sentiment s = "Very Bullish") ∧
    (0.2 ≤ s → s < 0.6 → score_to_sentiment s = "Bullish") ∧
    (-0.2 ≤ s → s < 0.2 → score_to_sentiment s = "Neutral") ∧
    (-0.6 ≤ s → s < -0.2 → score_to_sentiment s = "Bearish") ∧
    (s < -0.6 → score_to_sentiment s = "Very Bearish") := by
  unfold score_to_sentiment
  refine ⟨fun h => ?_, fun h1 h2 => ?_, fun h1 h2 => ?_, fun h1 h2 => ?_, fun h => ?_⟩
  · rw [if_pos (by norm_num; linarith)]
  · rw [if_neg (by norm_num; linarith), if_pos (by norm_num; linarith)]
  · rw [if_neg (by norm_num; linarith), if_neg (by norm_num; linarith),
      if_pos (by norm_num; linarith)]
  · rw [if_neg (by norm_num; linarith), if_neg (by norm_num; linarith),
      if_neg (by norm_num; linarith), if_pos (by norm_num; linarith)]
  · rw [if_neg (by norm_num; linarith), if_neg (by norm_num; linarith),
      if_neg (by norm_num; linarith), if_neg (by norm_num; linarith)]

/-- C6 claim, counterexample: for the single successful score -0.2 the
overall score is -0.2; the claimed banding (open interval (-0.2, 0.2) for
Neutral, then ≥ -0.6 Bearish) predicts `'Bearish'`, but the code's
`score >= -0.2` branch returns `'Neutral'`. -/
theorem c6_counterexample :
    (get_indicator_score_summary [some (-0.2)]).overall_score = -0.2 ∧
    (get_indicator_score_summary [some (-0.2)]).overall_sentiment = "Neutral" ∧
    "Neutral" ≠ "Bearish" := by
  refine ⟨?_, ?_, by decide⟩ <;>
    norm_num [get_indicator_score_summary, score_to_sentiment, List.filterMap_cons]

/-- C6 amended: for every multiset of successfully computed scores (at
least one), the overall score is their arithmetic mean; the sentiment uses
the 5-bucket banding with half-open bands (≥ 0.6 Very Bullish, [0.2, 0.6)
Bullish, [-0.2, 0.2) Neutral, [-0.6, -0.2) Bearish, below -0.6 Very
Bearish); the counts use the separate ±0.3 cutoff (bullish iff score >
0.3, bearish iff score < -0.3, neutral otherwise), and the three counts
partition the scores; for scores [0.8, -0.5, 0.1] the overall score is
2/15 ≈ 0.1333 with counts 1, 1, 1. -/
theorem c6_summary (outcomes : List (Option ℚ))
    (h : outcomes.filterMap id ≠ []) :
    (get_indicator_score_summary outcomes).overall_score =
      (outcomes.filterMap id).sum / ((outcomes.filterMap id).length : ℚ) ∧
    ((0.6 ≤ (get_indicator_score_summary outcomes).overall_score →
      (get_indicator_score_summary outcomes).overall_sentiment = "Very Bullish") ∧
     (0.2 ≤ (get_indicator_score_summary outcomes).overall_score →
      (get_indicator_score_summary outcomes).overall_score < 0.6 →
      (get_indicator_score_summary outcomes).overall_sentiment = "Bullish") ∧
     (-0.2 ≤ (get_indicator_score_summary outcomes).overall_score →
      (get_indicator_score_summary outcomes).overall_score < 0.2 →
      (get_indicator_score_summary outcomes).overall_sentiment = "Neutral") ∧
     (-0.6 ≤ (get_indicator_score_summary outcomes).overall_score →
      (get_indicator_score_summary outcomes).overall_score < -0.2 →
      (get_indicator_score_summary outcomes).overall_sentiment = "Bearish") ∧
     ((get_indicator_score_summary outcomes).overall_score < -0.6 →
      (get_indicator_score_summary outcomes).overall_sentiment = "Very Bearish")) ∧
    (get_indicator_score_summary outcomes).bullish_count =
      ((outcomes.filterMap id).filter (fun s => decide (s > 0.3))).length ∧
    (get_indicator_score_summary outcomes).bearish_count =
      ((outcomes.filterMap id).filter (fun s => decide (s < -0.3))).length ∧
    (get_indicator_score_summary outcomes).bullish_count +
      (get_indicator_score_summary outcomes).bearish_count +
      (get_indicator_score_summary outcomes).neutral_count =
      (get_indicator_score_summary outcomes).indicator_count ∧
    (get_indicator_score_summary [some 0.8, some (-0.5), some 0.1]).overall_score
      = 2 / 15 ∧
    (get_indicator_score_summary [some 0.8, some (-0.5), some 0.1]).bullish_count
      = 1 ∧
    (get_indicator_score_summary [some 0.8, some (-0.5), some 0.1]).bearish_count
      = 1 ∧
    (get_indicator_score_summary [some 0.8, some (-0.5), some 0.1]).neutral_count
      = 1 := by
  have hmean : (get_indicator_score_summary outcomes).overall_score =
      (outcomes.filterMap id).sum / ((outcomes.filterMap id).length : ℚ) := by
    simp only [get_indicator_score_summary]
    rw [if_neg (by simpa using h)]
  refine ⟨hmean, ?_, rfl, rfl, ?_, ?_, ?_, ?_, ?_⟩
  · exact score_to_sentiment_spec
      ((get_indicator_score_summary outcomes).overall_score)
  · show ((outcomes.filterMap id).filter _).length +
      ((outcomes.filterMap id).filter _).length +
      ((outcomes.filterMap id).filter _).length = (outcomes.filterMap id).length
    induction outcomes.filterMap id with
    | nil => rfl
    | cons head tail ih =>
      by_cases h1 : head > (0.3 : ℚ)
      · simp only [List.filter_cons]
        rw [if_pos (by simpa using h1), if_neg (by simp; linarith),
          if_neg (by simp; intro h'; linarith)]
        simp only [List.length_cons]
        omega
      · by_cases h2 : head < (-0.3 : ℚ)
        · simp only [List.filter_cons]
          rw [if_neg (by simpa using h1), if_pos (by simpa using h2),
            if_neg (by simp; intro h'; linarith)]
          simp only [List.length_cons]
          omega
        · simp only [List.filter_cons]
          rw [if_neg (by simpa using h1), if_neg (by simpa using h2),
            if_pos (by simp; constructor <;> linarith)]
          simp only [List.length_cons]
          omega
  · norm_num [get_indicator_score_summary, List.filterMap_cons]
  · norm_num [get_indicator_score_summary, List.filterMap_cons, List.filter]
  · norm_num [get_indicator_score_summary, List.filterMap_cons, List.filter]
  · norm_num [get_indicator_score_summary, List.filterMap_cons, List.filter]

/-- C6 witness: the amended property at the example outcomes
[0.8, -0.5, 0.1]: the overall score equals the arithmetic mean. -/
theorem c6_witness :
    (get_indicator_score_summary [some 0.8, some (-0.5), some 0.1]).overall_score =
      ([some (0.8 : ℚ), some (-0.5), some 0.1].filterMap id).sum /
        (([some (0.8 : ℚ), some (-0.5), some 0.1].filterMap id).length : ℚ) := by
  have h := c6_summary [some 0.8, some (-0.5), some 0.1] (by simp)
  exact h.1

/-- C10 confirmed: when no indicator produces a score (no indicators, or
every outcome fails and is skipped), the summary still comes back with
overall score 0, sentiment 'Neutral', zero indicator count, an empty
indicators list and zero bullish/bearish/neutral counts. -/
theorem c10_empty_summary (outcomes : List (Option ℚ))
    (h : ∀ o ∈ outcomes, o = none) :
    get_indicator_score_summary outcomes =
      ⟨0, "Neutral", 0, [], 0, 0, 0⟩ := by
  have hnil : outcomes.filterMap id = [] := by
    rw [List.filterMap_eq_nil_iff]
    intro a ha
    simp [h a ha]
  have h0 : score_to_sentiment 0 = "Neutral" := by norm_num [score_to_sentiment]
  simp [get_indicator_score_summary, hnil, h0]

/-- C10 witness: a single failing indicator yields the neutral empty
summary. -/
theorem c10_witness :
    get_indicator_score_summary [none] = ⟨0, "Neutral", 0, [], 0, 0, 0⟩ :=
  c10_empty_summary [none] (by simp)

/-! ## stock_indicator_adapter.py: _score_momentum (C8) -/

/-- A result record of the external math routines as `_score_momentum`
sees it: a MACD record exposes optional `macd`/`signal` fields, an OBV
record an optional `obv` field; both expose a `date`. -/
inductive IndResult where
  | macdRec (rdate : ℕ) (macd signal : Option ℚ)
  | obvRec (rdate : ℕ) (obv : Option ℚ)
deriving DecidableEq

/-- The `date` attribute of a result record. -/
def IndResult.rdate : IndResult → ℕ
  | .macdRec d _ _ => d
  | .obvRec d _ => d

/-- `max(-1.0, min(1.0, x))` as used by `_score_momentum`
(stock_indicator_adapter.py lines 340 and 353). -/
def clampScore (x : ℚ) : ℚ := max (-1) (min 1 x)

/-- The index search of `_score_momentum` (stock_indicator_adapter.py
lines 319-323): the first index whose record date equals the target
date. -/
def findDateIdx (results : List IndResult) (targetDate : ℕ) : Option ℕ :=
  match results with
  | [] => none
  | r :: rest =>
    if r.rdate = targetDate then some 0
    else (findDateIdx rest targetDate).map (· + 1)

/-- `StockIndicatorCalculator._score_momentum` (stock_indicator_adapter.py
lines 307-355).  Returns 0 when the target date is absent or is the very
first observation; for a MACD record, `clamp((macd - signal)/5)` when both
fields are non-null, else 0; for an OBV record, `clamp((obv_t -
obv_prev)/|obv_prev| * 10)` when both values are non-null and
`|obv_prev| > 0`, else 0.  (Python would raise an `AttributeError` if the
previous record of an OBV record were not itself an OBV record; the series
produced by one routine is homogeneous, and that arm here yields 0.) -/
def score_momentum (results : List IndResult) (targetDate : ℕ) : ℚ :=
  match findDateIdx results targetDate with
  | none => 0
  | some 0 => 0
  | some (i + 1) =>
    match results.get? (i + 1) with
    | none => 0
    | some current =>
      match current with
      | .macdRec _ m s =>
        match m, s with
        | some mv, some sv => clampScore ((mv - sv) / 5)
        | _, _ => 0
      | .obvRec _ ov =>
        match ov, results.get? i with
        | some cv, some (.obvRec _ (some pv)) =>
          if 0 < |pv| then clampScore ((cv - pv) / |pv| * 10) else 0
        | _, _ => 0

/-- C8 confirmed: momentum scoring returns `clamp((macd - signal)/5)` for
a MACD record at the target date and `clamp(((obv_t - obv_prev)/|obv_prev|)
* 10)` for an OBV record with a non-zero prior value, and returns 0 when
the target-date record is the very first observation; for
`macd = 2.5, signal = 0.0` the score is 0.5. -/
theorem c8_score_momentum (results : List IndResult) (targetDate : ℕ) :
    (findDateIdx results targetDate = some 0 →
      score_momentum results targetDate = 0) ∧
    (∀ i rd mv sv, findDateIdx results targetDate = some (i + 1) →
      results.get? (i + 1) = some (.macdRec rd (some mv) (some sv)) →
      score_momentum results targetDate = clampScore ((mv - sv) / 5)) ∧
    (∀ i rd rd' cv pv, findDateIdx results targetDate = some (i + 1) →
      results.get? (i + 1) = some (.obvRec rd (some cv)) →
      results.get? i = some (.obvRec rd' (some pv)) →
      pv ≠ 0 →
      score_momentum results targetDate = clampScore ((cv - pv) / |pv| * 10)) ∧
    score_momentum
      [.macdRec 0 none none, .macdRec 1 (some (5 / 2)) (some 0)] 1 = 1 / 2 := by
  refine ⟨fun h => ?_, fun i rd mv sv hf hc => ?_, fun i rd rd' cv pv hf hc hp hne => ?_, ?_⟩
  · simp only [score_momentum, h]
  · simp only [score_momentum, hf, hc]
  · simp only [score_momentum, hf, hc, hp]
    rw [if_pos (abs_pos.mpr hne)]
  · have hidx : findDateIdx
        [IndResult.macdRec 0 none none, IndResult.macdRec 1 (some (5 / 2)) (some 0)] 1 =
        some 1 := by
      simp [findDateIdx, IndResult.rdate]
    simp only [score_momentum, hidx, List.get?]
    norm_num [clampScore]

/-- C8 witness: the MACD conjunct applied to a concrete two-record series
with `macd = 5/2`, `signal = 0` at its second date. -/
theorem c8_witness :
    score_momentum
      [IndResult.macdRec 0 none none, IndResult.macdRec 1 (some (5 / 2)) (some 0)] 1 =
      clampScore ((5 / 2 - 0) / 5) := by
  have h := c8_score_momentum
    [IndResult.macdRec 0 none none, IndResult.macdRec 1 (some (5 / 2)) (some 0)] 1
  exact h.2.1 0 1 (5 / 2) 0 (by simp [findDateIdx, IndResult.rdate]) rfl

/-! ## settings.py: BaseIndicatorSettings.to_dict / from_dict (C9)

A settings dataclass is described by its field list: each field has a name
and a default (`none` models a Python `None` default, i.e. an
`Optional[...]` field).  An instance assigns each field a value of its
annotated type: `none` only for `Optional` fields.  Numeric field values
are modelled in ℚ; a plain mapping is an association list. -/

/-- One dataclass field of a settings class: its name and its declared
default (`none` for `Optional[...] = None`). -/
structure FieldSpec where
  name : String
  default : Option ℚ
deriving DecidableEq

/-- `BaseIndicatorSettings.to_dict` (settings.py lines 32-41):
`asdict(self)` restricted to the entries whose value is not `None`. -/
def settings_to_dict (fields : List FieldSpec) (vals : List (Option ℚ)) :
    List (String × ℚ) :=
  (fields.zip vals).filterMap (fun fv => fv.2.map (fun v => (fv.1.name, v)))

/-- Dictionary key lookup, first match. -/
def dictLookup (m : List (String × ℚ)) (k : String) : Option ℚ :=
  (m.find? (fun p => p.1 = k)).map Prod.snd

/-- `BaseIndicatorSettings.from_dict` (settings.py lines 43-58): keep only
the keys that are dataclass fields and construct the instance, the
declared default standing in for every absent field. -/
def settings_from_dict (fields : List FieldSpec) (m : List (String × ℚ)) :
    List (Option ℚ) :=
  fields.map (fun f =>
    match dictLookup m f.name with
    | some v => some v
    | none => f.default)

/-- A well-typed instance of a settings dataclass: a value per field, with
`None` only in `Optional` fields (those whose declared default is
`None`). -/
def WellTypedSettings (fields : List FieldSpec) (vals : List (Option ℚ)) : Prop :=
  fields.length = vals.length ∧
    ∀ fv ∈ fields.zip vals, fv.2 = none → fv.1.default = none

/-- The field lists of the 13 settings classes of `SETTINGS_REGISTRY`
(settings.py lines 74-282), with their declared defaults, in registry
order. -/
def registeredSettingsFields : List (List FieldSpec) :=
  [[⟨"lookback_periods", some 14⟩, ⟨"oversold_threshold", some 30⟩,
    ⟨"overbought_threshold", some 70⟩],
   [⟨"fast_periods", some 12⟩, ⟨"slow_periods", some 26⟩,
    ⟨"signal_periods", some 9⟩],
   [⟨"lookback_periods", some 20⟩],
   [⟨"lookback_periods", some 20⟩],
   [⟨"lookback_periods", some 20⟩, ⟨"standard_deviations", some 2⟩],
   [⟨"lookback_periods", some 14⟩, ⟨"signal_periods", some 3⟩,
    ⟨"smooth_periods", some 3⟩, ⟨"oversold_threshold", some 20⟩,
    ⟨"overbought_threshold", some 80⟩],
   [⟨"lookback_periods", some 14⟩],
   [⟨"lookback_periods", some 14⟩],
   [⟨"lookback_periods", some 20⟩, ⟨"oversold_threshold", some (-100)⟩,
    ⟨"overbought_threshold", some 100⟩],
   [⟨"lookback_periods", some 14⟩, ⟨"oversold_threshold", some (-80)⟩,
    ⟨"overbought_threshold", some (-20)⟩],
   [⟨"sma_periods", none⟩],
   [⟨"acceleration_step", some (1 / 50)⟩, ⟨"max_acceleration", some (1 / 5)⟩],
   [⟨"tenkan_periods", some 9⟩, ⟨"kijun_periods", some 26⟩,
    ⟨"senkou_span_b_periods", some 52⟩]]

lemma from_dict_cons_unknown (fields : List FieldSpec) (k : String) (v : ℚ)
    (m : List (String × ℚ)) (hk : k ∉ fields.map FieldSpec.name) :
    settings_from_dict fields ((k, v) :: m) = settings_from_dict fields m := by
  unfold settings_from_dict
  induction fields with
  | nil => rfl
  | cons f fs ih =>
    simp only [List.map_cons, List.mem_cons, not_or] at hk ⊢
    have hne : k ≠ f.name := hk.1
    have : dictLookup ((k, v) :: m) f.name = dictLookup m f.name := by
      unfold dictLookup
      rw [List.find?_cons_of_neg _ (by simp [hne])]
    rw [this]
    exact congrArg _ (ih hk.2)

lemma settings_roundtrip (fields : List FieldSpec) (vals : List (Option ℚ))
    (hnd : (fields.map FieldSpec.name).Nodup)
    (hwt : WellTypedSettings fields vals) :
    settings_from_dict fields (settings_to_dict fields vals) = vals := by
  obtain ⟨hlen, htyped⟩ := hwt
  induction fields generalizing vals with
  | nil =>
    cases vals with
    | nil => rfl
    | cons v vs => simp at hlen
  | cons f fs ih =>
    cases vals with
    | nil => simp at hlen
    | cons v vs =>
      simp only [List.map_cons, List.nodup_cons] at hnd
      have hlen' : fs.length = vs.length := by simpa using hlen
      have htyped' : ∀ fv ∈ fs.zip vs, fv.2 = none → fv.1.default = none := by
        intro fv hfv
        exact htyped fv (by simp [List.zip_cons_cons, hfv])
      cases v with
      | none =>
        have hdef : f.default = none :=
          htyped (f, none) (by simp [List.zip_cons_cons]) rfl
        have hto : settings_to_dict (f :: fs) (none :: vs) =
            settings_to_dict fs vs := by
          simp [settings_to_dict, List.zip_cons_cons]
        rw [hto]
        show (match dictLookup (settings_to_dict fs vs) f.name with
          | some v => some v
          | none => f.default) :: settings_from_dict fs (settings_to_dict fs vs)
          = none :: vs
        have hmiss : dictLookup (settings_to_dict fs vs) f.name = none := by
          unfold dictLookup
          have hfind : List.find? (fun p => decide (p.1 = f.name))
              (settings_to_dict fs vs) = none := by
            rw [List.find?_eq_none]
            intro p hp
            simp only [settings_to_dict, List.mem_filterMap] at hp
            obtain ⟨fv, hfv, hmap⟩ := hp
            have hname : fv.1.name = p.1 := by
              cases h2 : fv.2 with
              | none => rw [h2] at hmap; simp at hmap
              | some w =>
                rw [h2] at hmap
                simp only [Option.map_some'] at hmap
                rw [← Option.some.inj hmap]
            have hmem : fv.1 ∈ fs := (List.of_mem_zip hfv).1
            simp only [decide_eq_true_eq]
            intro hcontra
            apply hnd.1
            rw [show f.name = fv.1.name from by rw [hname, hcontra]]
            exact List.mem_map_of_mem FieldSpec.name hmem
          rw [hfind]
          rfl
        rw [hmiss, hdef, ih vs hnd.2 hlen' htyped']
      | some w =>
        have hto : settings_to_dict (f :: fs) (some w :: vs) =
            (f.name, w) :: settings_to_dict fs vs := by
          simp [settings_to_dict, List.zip_cons_cons]
        rw [hto]
        show (match dictLookup ((f.name, w) :: settings_to_dict fs vs) f.name with
          | some v => some v
          | none => f.default) :: settings_from_dict fs
            ((f.name, w) :: settings_to_dict fs vs)
          = some w :: vs
        have hhit : dictLookup ((f.name, w) :: settings_to_dict fs vs) f.name
            = some w := by
          unfold dictLookup
          rw [List.find?_cons_of_pos _ (by simp)]
          rfl
        rw [hhit, from_dict_cons_unknown fs f.name w _ hnd.1,
          ih vs hnd.2 hlen' htyped']

/-- C9 confirmed: for every registered settings class and every well-typed
instance, `from_dict (to_dict s) == s`; `from_dict` ignores keys that are
not fields of the dataclass; and `to_dict` never includes a field whose
value is `None` — every emitted entry comes from a field holding a
value. -/
theorem c9_settings_serialization (fields : List FieldSpec)
    (hreg : fields ∈ registeredSettingsFields)
    (vals : List (Option ℚ)) (hwt : WellTypedSettings fields vals) :
    settings_from_dict fields (settings_to_dict fields vals) = vals ∧
    (∀ k v m, k ∉ fields.map FieldSpec.name →
      settings_from_dict fields ((k, v) :: m) = settings_from_dict fields m) ∧
    (∀ e ∈ settings_to_dict fields vals,
      ∃ fv ∈ fields.zip vals, fv.1.name = e.1 ∧ fv.2 = some e.2) := by
  have hnd : (fields.map FieldSpec.name).Nodup := by
    fin_cases hreg <;> decide
  refine ⟨settings_roundtrip fields vals hnd hwt,
    fun k v m hk => from_dict_cons_unknown fields k v m hk, fun e he => ?_⟩
  simp only [settings_to_dict, List.mem_filterMap] at he
  obtain ⟨fv, hfv, hmap⟩ := he
  cases h2 : fv.2 with
  | none => rw [h2] at hmap; simp at hmap
  | some w =>
    rw [h2] at hmap
    simp only [Option.map_some'] at hmap
    refine ⟨fv, hfv, ?_, ?_⟩
    · rw [← Option.some.inj hmap]
    · rw [h2, ← Option.some.inj hmap]

/-- C9 witness: the RSI settings class with its default values
`(14, 30, 70)` round-trips through the plain mapping. -/
theorem c9_witness :
    settings_from_dict
        [⟨"lookback_periods", some 14⟩, ⟨"oversold_threshold", some 30⟩,
         ⟨"overbought_threshold", some 70⟩]
        (settings_to_dict
          [⟨"lookback_periods", some 14⟩, ⟨"oversold_threshold", some 30⟩,
           ⟨"overbought_threshold", some 70⟩]
          [some 14, some 30, some 70]) = [some 14, some 30, some 70] := by
  have h := c9_settings_serialization
    [⟨"lookback_periods", some 14⟩, ⟨"oversold_threshold", some 30⟩,
     ⟨"overbought_threshold", some 70⟩]
    (by simp [registeredSettingsFields])
    [some 14, some 30, some 70]
    (by constructor
        · rfl
        · intro fv hfv hnone
          simp [List.zip_cons_cons] at hfv
          rcases hfv with h1 | h1 | h1 <;> rw [h1] at hnone <;> simp at hnone)
  exact h.1

/-! ## helpers.py: calculate_indicator_for_date_range (C5)

The persisted `IndicatorData` table is an association list of rows keyed
on (indicator_id, date) and holding the score value (timestamps are
abstracted away); `indicator.calculate_value` is abstracted as a function
from the date to `Option ℚ`, `none` standing for the per-date exception
the loop swallows. -/

/-- The persisted `IndicatorData` rows: key (indicator_id, date) with the
stored `value`. -/
abbrev ScoreDb := List ((ℕ × ℕ) × ℚ)

/-- `IndicatorData.objects.update_or_create(indicator=…, date=…,
defaults={'value': v, …})` (helpers.py lines 258-265): overwrite the row
with the given key when one exists, otherwise insert a new row. -/
def upsert (db : ScoreDb) (k : ℕ × ℕ) (v : ℚ) : ScoreDb :=
  if db.any (fun e => e.1 = k) then
    db.map (fun e => if e.1 = k then (k, v) else e)
  else db ++ [(k, v)]

/-- Row lookup by key, first match. -/
def dbGet (db : ScoreDb) (k : ℕ × ℕ) : Option ℚ :=
  (db.find? (fun e => e.1 = k)).map Prod.snd

/-- The dates visited by the loop `while current_date <= end_date`
(helpers.py lines 244-270), in ascending order. -/
def dateRange (startD endD : ℕ) : List ℕ :=
  (List.range (endD + 1 - startD)).map (startD + ·)

/-- One loop body iteration (helpers.py lines 246-268): a raised
exception (`none`) skips the date entirely; a computed value is appended
to the results and, when `save_to_db`, upserted into the table. -/
def rangeStep (calcF : ℕ → Option ℚ) (indId : ℕ) (saveToDb : Bool)
    (st : List (ℕ × ℚ) × ScoreDb) (d : ℕ) : List (ℕ × ℚ) × ScoreDb :=
  match calcF d with
  | none => st
  | some v =>
    (st.1 ++ [(d, v)], if saveToDb then upsert st.2 (indId, d) v else st.2)

/-- `calculate_indicator_for_date_range` (helpers.py lines 222-272):
fold the loop body over the date range, starting from empty results and
the current table. -/
def calculate_indicator_for_date_range (calcF : ℕ → Option ℚ) (indId : ℕ)
    (startD endD : ℕ) (saveToDb : Bool) (db : ScoreDb) :
    List (ℕ × ℚ) × ScoreDb :=
  (dateRange startD endD).foldl (rangeStep calcF indId saveToDb) ([], db)

lemma upsert_keys_nodup (db : ScoreDb) (k : ℕ × ℕ) (v : ℚ)
    (hnd : (db.map Prod.fst).Nodup) :
    ((upsert db k v).map Prod.fst).Nodup := by
  unfold upsert
  split
  · have : (db.map (fun e => if e.1 = k then (k, v) else e)).map Prod.fst =
        db.map Prod.fst := by
      rw [List.map_map]
      apply List.map_congr_left
      intro e _
      by_cases he : e.1 = k
      · simp [he]
      · simp [he]
    rw [this]
    exact hnd
  · rename_i hne
    rw [List.map_append]
    have hk : k ∉ db.map Prod.fst := by
      intro hmem
      obtain ⟨e, he, hek⟩ := List.mem_map.mp hmem
      exact absurd (List.any_eq_true.mpr ⟨e, he, by simp [hek]⟩) hne
    simp only [List.map_cons, List.map_nil]
    rw [← List.concat_eq_append]
    exact List.Nodup.concat hk hnd

lemma upsert_mem (db : ScoreDb) (k : ℕ × ℕ) (v : ℚ) :
    (k, v) ∈ upsert db k v := by
  unfold upsert
  split
  · rename_i hany
    obtain ⟨e, he, hek⟩ := List.any_eq_true.mp hany
    exact List.mem_map.mpr ⟨e, he, by simp at hek; simp [hek]⟩
  · simp

lemma upsert_mem_other (db : ScoreDb) (k : ℕ × ℕ) (v : ℚ)
    (e : (ℕ × ℕ) × ℚ) (he : e ∈ db) (hne : e.1 ≠ k) :
    e ∈ upsert db k v := by
  unfold upsert
  split
  · exact List.mem_map.mpr ⟨e, he, by rw [if_neg hne]⟩
  · exact List.mem_append_left _ he

lemma upsert_eq_self (db : ScoreDb) (k : ℕ × ℕ) (v : ℚ)
    (hnd : (db.map Prod.fst).Nodup) (hmem : (k, v) ∈ db) :
    upsert db k v = db := by
  unfold upsert
  rw [if_pos (List.any_eq_true.mpr ⟨(k, v), hmem, by simp⟩)]
  have hinj := List.inj_on_of_nodup_map hnd
  conv_rhs => rw [← List.map_id db]
  apply List.map_congr_left
  intro e he
  by_cases hek : e.1 = k
  · have : e = (k, v) := hinj he hmem (by simpa using hek)
    simp [this]
  · simp [hek]

lemma dbGet_map_ne (db : ScoreDb) (k k' : ℕ × ℕ) (v : ℚ) (hne : k' ≠ k) :
    dbGet (db.map (fun e => if e.1 = k then (k, v) else e)) k' = dbGet db k' := by
  induction db with
  | nil => rfl
  | cons e rest ih =>
    simp only [List.map_cons]
    by_cases hek : e.1 = k
    · unfold dbGet
      rw [if_pos hek]
      rw [List.find?_cons_of_neg _ (by simp; intro h; exact absurd h.symm hne),
        List.find?_cons_of_neg _ (by simp [hek]; intro h; exact absurd h.symm hne)]
      exact ih
    · unfold dbGet
      rw [if_neg hek]
      by_cases hk' : e.1 = k'
      · rw [List.find?_cons_of_pos _ (by simp [hk']),
          List.find?_cons_of_pos _ (by simp [hk'])]
      · rw [List.find?_cons_of_neg _ (by simp [hk']),
          List.find?_cons_of_neg _ (by simp [hk'])]
        exact ih

lemma dbGet_upsert_ne (db : ScoreDb) (k k' : ℕ × ℕ) (v : ℚ) (hne : k' ≠ k) :
    dbGet (upsert db k v) k' = dbGet db k' := by
  unfold upsert
  split
  · exact dbGet_map_ne db k k' v hne
  · unfold dbGet
    rw [List.find?_append]
    have : List.find? (fun e => decide (e.1 = k')) [(k, v)] = none := by
      rw [List.find?_cons_of_neg _ (by simp; intro h; exact absurd h.symm hne)]
      rfl
    rw [this, Option.or_none]

lemma range_foldl_results (calcF : ℕ → Option ℚ) (indId : ℕ) :
    ∀ (dates : List ℕ) (res : List (ℕ × ℚ)) (db : ScoreDb),
      (dates.foldl (rangeStep calcF indId true) (res, db)).1 =
        res ++ dates.filterMap (fun d => (calcF d).map (fun v => (d, v))) := by
  intro dates
  induction dates with
  | nil => intro res db; simp
  | cons d ds ih =>
    intro res db
    simp only [List.foldl_cons, List.filterMap_cons, rangeStep]
    cases hc : calcF d with
    | none => simp [ih res db]
    | some v => simp [ih (res ++ [(d, v)]) _]

lemma range_foldl_keys_nodup (calcF : ℕ → Option ℚ) (indId : ℕ) :
    ∀ (dates : List ℕ) (res : List (ℕ × ℚ)) (db : ScoreDb),
      (db.map Prod.fst).Nodup →
      ((dates.foldl (rangeStep calcF indId true) (res, db)).2.map Prod.fst).Nodup := by
  intro dates
  induction dates with
  | nil => intro res db h; simpa using h
  | cons d ds ih =>
    intro res db h
    simp only [List.foldl_cons, rangeStep]
    cases hc : calcF d with
    | none => exact ih res db h
    | some v =>
      simp only [if_pos rfl]
      exact ih _ _ (upsert_keys_nodup db (indId, d) v h)

lemma range_foldl_preserves (calcF : ℕ → Option ℚ) (indId : ℕ) :
    ∀ (dates : List ℕ) (res : List (ℕ × ℚ)) (db : ScoreDb)
      (e : (ℕ × ℕ) × ℚ), e ∈ db → (∀ d ∈ dates, e.1 ≠ (indId, d)) →
      e ∈ (dates.foldl (rangeStep calcF indId true) (res, db)).2 := by
  intro dates
  induction dates with
  | nil => intro res db e he _; simpa using he
  | cons d ds ih =>
    intro res db e he hk
    simp only [List.foldl_cons, rangeStep]
    cases hc : calcF d with
    | none => exact ih res db e he fun d' hd' => hk d' (by simp [hd'])
    | some v =>
      simp only [if_pos rfl]
      exact ih _ _ e
        (upsert_mem_other db (indId, d) v e he (hk d (by simp)))
        (fun d' hd' => hk d' (by simp [hd']))

lemma range_foldl_mem (calcF : ℕ → Option ℚ) (indId : ℕ) :
    ∀ (dates : List ℕ) (res : List (ℕ × ℚ)) (db : ScoreDb)
      (d : ℕ) (v : ℚ), dates.Nodup → d ∈ dates → calcF d = some v →
      ((indId, d), v) ∈ (dates.foldl (rangeStep calcF indId true) (res, db)).2 := by
  intro dates
  induction dates with
  | nil => intro res db d v _ hd; simp at hd
  | cons d0 ds ih =>
    intro res db d v hnd hd hc
    simp only [List.nodup_cons] at hnd
    rcases List.mem_cons.mp hd with rfl | hd'
    · simp only [List.foldl_cons, rangeStep, hc, if_pos rfl]
      exact range_foldl_preserves calcF indId ds _ _ _
        (upsert_mem db (indId, d) v)
        (fun d' hd' => by simp; intro h; subst h; exact hnd.1 hd')
    · simp only [List.foldl_cons, rangeStep]
      cases hc0 : calcF d0 with
      | none => exact ih res db d v hnd.2 hd' hc
      | some v0 =>
        simp only [if_pos rfl]
        exact ih _ _ d v hnd.2 hd' hc

lemma range_foldl_get_failed (calcF : ℕ → Option ℚ) (indId : ℕ) :
    ∀ (dates : List ℕ) (res : List (ℕ × ℚ)) (db : ScoreDb) (k : ℕ × ℕ),
      (∀ d ∈ dates, (indId, d) = k → calcF d = none) →
      dbGet (dates.foldl (rangeStep calcF indId true) (res, db)).2 k = dbGet db k := by
  intro dates
  induction dates with
  | nil => intro res db k _; rfl
  | cons d ds ih =>
    intro res db k hk
    simp only [List.foldl_cons, rangeStep]
    cases hc : calcF d with
    | none => exact ih res db k fun d' hd' => hk d' (by simp [hd'])
    | some v =>
      simp only [if_pos rfl]
      rw [ih _ _ k fun d' hd' => hk d' (by simp [hd'])]
      apply dbGet_upsert_ne
      intro hkk
      have hnone := hk d (by simp) hkk.symm
      rw [hnone] at hc
      exact Option.noConfusion hc

lemma range_foldl_idem (calcF : ℕ → Option ℚ) (indId : ℕ) :
    ∀ (dates : List ℕ) (res : List (ℕ × ℚ)) (db : ScoreDb),
      (db.map Prod.fst).Nodup →
      (∀ d ∈ dates, ∀ v, calcF d = some v → ((indId, d), v) ∈ db) →
      (dates.foldl (rangeStep calcF indId true) (res, db)).2 = db := by
  intro dates
  induction dates with
  | nil => intro res db _ _; rfl
  | cons d ds ih =>
    intro res db hnd hmem
    simp only [List.foldl_cons, rangeStep]
    cases hc : calcF d with
    | none => exact ih res db hnd fun d' hd' => hmem d' (by simp [hd'])
    | some v =>
      simp only [if_pos rfl]
      rw [upsert_eq_self db (indId, d) v hnd (hmem d (by simp) v hc)]
      exact ih _ db hnd fun d' hd' => hmem d' (by simp [hd'])

lemma dateRange_nodup (startD endD : ℕ) : (dateRange startD endD).Nodup :=
  (List.nodup_range _).map fun a b h => by omega

/-- C5 confirmed: the range calculation visits each date of
[start, end] in order; a date whose calculation raises is skipped — it is
absent from the returned list and its row in the table is untouched — and
the loop continues; each success is upserted keyed on
(indicator_id, date), the keys stay free of duplicates, and a second run
over the same range returns the same results and leaves the table exactly
as the first run left it (the overwrite changes nothing because the
recomputed values are identical). -/
theorem c5_range_calculation (calcF : ℕ → Option ℚ) (indId startD endD : ℕ)
    (db : ScoreDb) (hnd : (db.map Prod.fst).Nodup) :
    (calculate_indicator_for_date_range calcF indId startD endD true db).1 =
      (dateRange startD endD).filterMap
        (fun d => (calcF d).map (fun v => (d, v))) ∧
    ((calculate_indicator_for_date_range calcF indId startD endD true db).2.map
      Prod.fst).Nodup ∧
    (∀ d ∈ dateRange startD endD, calcF d = none →
      dbGet (calculate_indicator_for_date_range calcF indId startD endD true db).2
          (indId, d) = dbGet db (indId, d)) ∧
    calculate_indicator_for_date_range calcF indId startD endD true
        (calculate_indicator_for_date_range calcF indId startD endD true db).2 =
      calculate_indicator_for_date_range calcF indId startD endD true db := by
  unfold calculate_indicator_for_date_range
  refine ⟨by simpa using range_foldl_results calcF indId (dateRange startD endD) [] db,
    range_foldl_keys_nodup calcF indId (dateRange startD endD) [] db hnd,
    fun d hd hc => ?_, ?_⟩
  · apply range_foldl_get_failed
    intro d' hd' hk
    obtain rfl : d' = d := by
      have := congrArg Prod.snd hk
      simpa using this
    exact hc
  · have hnd2 := range_foldl_keys_nodup calcF indId (dateRange startD endD) [] db hnd
    have hres := range_foldl_results calcF indId (dateRange startD endD) [] db
    have hdb2 := range_foldl_idem calcF indId (dateRange startD endD) []
      ((dateRange startD endD).foldl (rangeStep calcF indId true) ([], db)).2
      hnd2
      (fun d hd v hc => range_foldl_mem calcF indId (dateRange startD endD) [] db
        d v (dateRange_nodup startD endD) hd hc)
    have hres2 := range_foldl_results calcF indId (dateRange startD endD) []
      ((dateRange startD endD).foldl (rangeStep calcF indId true) ([], db)).2
    exact Prod.ext (by rw [hres2, hres]) hdb2

/-- C5 witness: indicator 7 over the dates 1..3, where date 2 fails and
dates 1 and 3 compute scores, starting from an empty table. -/
theorem c5_witness :
    ((calculate_indicator_for_date_range
        (fun d => if d = 2 then none else some 1) 7 1 3 true []).1 =
      (dateRange 1 3).filterMap
        (fun d => ((fun d => if d = 2 then none else some (1 : ℚ)) d).map
          (fun v => (d, v))) ∧
    ((calculate_indicator_for_date_range
        (fun d => if d = 2 then none else some 1) 7 1 3 true []).2.map
      Prod.fst).Nodup ∧
    (∀ d ∈ dateRange 1 3, (if d = 2 then none else some (1 : ℚ)) = none →
      dbGet (calculate_indicator_for_date_range
          (fun d => if d = 2 then none else some 1) 7 1 3 true []).2 (7, d) =
        dbGet [] (7, d)) ∧
    calculate_indicator_for_date_range
        (fun d => if d = 2 then none else some 1) 7 1 3 true
        (calculate_indicator_for_date_range
          (fun d => if d = 2 then none else some 1) 7 1 3 true []).2 =
      calculate_indicator_for_date_range
        (fun d => if d = 2 then none else some 1) 7 1 3 true []) :=
  c5_range_calculation (fun d => if d = 2 then none else some 1) 7 1 3 []
    (by simp)

end CryptoAnalysis
